import Mathlib

/-!
Shallow embedding of the RAG2 backend core (ingestion pipeline, embedding
client, vector-store interaction, chunker, deduplicator, retrieval engine)
together with theorems settling the specification claims.

Modelling conventions:
* Python floats are modelled as exact rationals (`ℚ`); `math.sqrt` (used only
  by the cosine-similarity deduplicator) forces that one component onto `ℝ`.
* Network collaborators (HTTP embedding API, Qdrant store, filesystem,
  relational session) are modelled as oracle parameters giving each call's
  outcome, so that every control-flow decision of the source is reproduced.
* Python exceptions become `Except` values; the exception class hierarchy of
  `backend/services/exceptions.py` is reflected in dedicated error types.
-/

/-! ## Definitions: shallow embedding of the source -/

/-- Errors raised by the embedding client, mirroring the hierarchy in
`backend/services/exceptions.py`: `timeout` is `EmbeddingTimeoutError`,
`retryable` is `EmbeddingRetryableError`, `service` is a plain
`EmbeddingServiceError` raised by `_request_embeddings`, and `aggregate` is
the final `EmbeddingServiceError` raised by `embed` when every model failed
(its message names all attempted models). All four are instances of
`EmbeddingServiceError`; only `retryable` is an `EmbeddingRetryableError`. -/
inductive EmbedError where
  | timeout (model : String)
  | retryable (model : String)
  | service (model : String)
  | aggregate (models : List String)
deriving Repr, DecidableEq

deriving instance DecidableEq for Except

/-- Whether the default tenacity policy retries this error
(`retry_if_exception_type((EmbeddingRetryableError, EmbeddingTimeoutError))`). -/
def EmbedError.retriedByPolicy : EmbedError → Bool
  | .timeout _ => true
  | .retryable _ => true
  | _ => false

/-- Whether the error is an `EmbeddingTimeoutError`. -/
def EmbedError.isTimeout : EmbedError → Bool
  | .timeout _ => true
  | _ => false

/-- Outcome of one HTTP POST to `/api/embeddings`, as seen by
`_request_embeddings`: a transport timeout (`httpx.TimeoutException`), another
transport error (`httpx.RequestError`), or a response carrying a status code
and a parsed JSON body. The body is abstracted to its `data` field: `none`
when missing or not a list, otherwise the list of items, each item being the
item's `embedding` field (`none` when missing or not a list). -/
inductive HttpOutcome where
  | netTimeout
  | netError
  | response (status : Nat) (data : Option (List (Option (List ℚ))))
deriving Repr, DecidableEq

/-- Helper for the per-item loop of `_request_embeddings`: validate each
item's `embedding` field in order, failing on the first missing vector or
vector whose length differs from `dim`. -/
def extractVectors (dim : Nat) : List (Option (List ℚ)) → Option (List (List ℚ))
  | [] => some []
  | none :: _ => none
  | some v :: rest =>
    if v.length = dim then (extractVectors dim rest).map (v :: ·) else none

/-- One call of `EmbeddingService._request_embeddings(model_name, texts)` on
an HTTP outcome `o`: transport timeouts become `EmbeddingTimeoutError`, other
transport errors `EmbeddingRetryableError`; status `>= 500`, `408` and `429`
are retryable, any other `>= 400` is a plain service error; then the `data`
items are validated against the configured dimension and the returned count
must equal the input count. -/
def request_embeddings (dim : Nat) (model : String) (texts : List String)
    (o : HttpOutcome) : Except EmbedError (List (List ℚ)) :=
  match o with
  | .netTimeout => .error (.timeout model)
  | .netError => .error (.retryable model)
  | .response status data =>
    if 500 ≤ status ∨ status = 408 ∨ status = 429 then .error (.retryable model)
    else if 400 ≤ status then .error (.service model)
    else
      match data with
      | none => .error (.service model)
      | some items =>
        if items = [] then .error (.service model)
        else
          match extractVectors dim items with
          | none => .error (.service model)
          | some vecs =>
            if vecs.length = texts.length then .ok vecs
            else .error (.service model)

/-- The default tenacity retry loop (`stop_after_attempt(3)`, `reraise=True`,
retrying only `EmbeddingRetryableError` and `EmbeddingTimeoutError`): `fuel`
counts the attempts still allowed after the current one, so the loop is
started with `fuel = 2`. With `reraise=True`, exhausting the attempts
re-raises the last attempt's own exception (the `except RetryError` branch of
`_embed_with_retry` is unreachable under this default policy); an error the
policy does not retry is raised at once. -/
def retryCall (f : Nat → Except EmbedError (List (List ℚ))) :
    Nat → Nat → Except EmbedError (List (List ℚ))
  | attempt, 0 => f attempt
  | attempt, fuel + 1 =>
    match f attempt with
    | .ok v => .ok v
    | .error e =>
      if e.retriedByPolicy then retryCall f (attempt + 1) fuel else .error e

/-- One call of `EmbeddingService._embed_with_retry(model_name, texts)` where
`attempts i` is the HTTP outcome of the `i`-th attempt against this model. -/
def embed_with_retry (dim : Nat) (model : String) (texts : List String)
    (attempts : Nat → HttpOutcome) : Except EmbedError (List (List ℚ)) :=
  retryCall (fun i => request_embeddings dim model texts (attempts i)) 0 2

/-- The model-fallback loop of `EmbeddingService.embed`: try each model in
order; an `EmbeddingRetryableError` falls through to the next model, any
other `EmbeddingServiceError` is re-raised when it is a timeout and otherwise
falls through; when no model is left, raise the aggregate failure naming all
attempted models. -/
def embedLoop (dim : Nat) (texts : List String) (allModels : List String)
    (attempts : String → Nat → HttpOutcome) :
    List String → Except EmbedError (List (List ℚ))
  | [] => .error (.aggregate allModels)
  | m :: rest =>
    match embed_with_retry dim m texts (attempts m) with
    | .ok v => .ok v
    | .error e =>
      match e with
      | .timeout s => .error (.timeout s)
      | _ => embedLoop dim texts allModels attempts rest

/-- `EmbeddingService.embed(texts)`: empty input short-circuits to the empty
output, otherwise the models `[self.model, *self.fallback_models]` are tried
in order. `attempts m i` gives the HTTP outcome of the `i`-th attempt against
model `m`. -/
def embed (dim : Nat) (model : String) (fallback_models : List String)
    (texts : List String) (attempts : String → Nat → HttpOutcome) :
    Except EmbedError (List (List ℚ)) :=
  if texts = [] then .ok []
  else embedLoop dim texts (model :: fallback_models) attempts
    (model :: fallback_models)

/-- `RetrievalFilters` from `backend/retrieval/models.py`. -/
structure RetrievalFilters where
  source_type : Option (List String)
  tags : Option (List String)
  visibility_scope : Option String
deriving Repr, DecidableEq

/-- `RetrievalFilters.is_empty`: Python `not any([...])`, so an unset field,
an empty list and an empty string all count as empty. -/
def RetrievalFilters.is_empty (f : RetrievalFilters) : Bool :=
  (match f.source_type with | none => true | some l => l = []) &&
  (match f.tags with | none => true | some l => l = []) &&
  (match f.visibility_scope with | none => true | some s => s = "")

/-- The default-constructed `RetrievalFilters()` (all fields `None`). -/
def RetrievalFilters.default : RetrievalFilters := ⟨none, none, none⟩

/-- Resolution of the effective `top_k` in `RetrievalService.retrieve`:
`max(top_k or self._settings.retrieval_top_k_default, 1)`. Python `or` falls
back to the default exactly when `top_k` is `None` or the integer `0` (the
only falsy int); any other explicit value — including a negative one — is
kept and then clamped by `max(_, 1)`. -/
def resolve_top_k (top_k : Option ℤ) (defaultTopK : ℤ) : ℤ :=
  max (match top_k with
       | none => defaultTopK
       | some k => if k = 0 then defaultTopK else k) 1

/-- Smallest element of a list of rationals (`arr.min()`); `0` for the empty
list, which `_normalize_scores` never queries. -/
def listMin : List ℚ → ℚ
  | [] => 0
  | x :: xs => xs.foldl min x

/-- Largest element of a list of rationals (`arr.max()`). -/
def listMax : List ℚ → ℚ
  | [] => 0
  | x :: xs => xs.foldl max x

/-- `np.isclose(a, b)` with the default tolerances: `|a - b| <= atol + rtol *
|b|` with `rtol = 1e-5` and `atol = 1e-8`. -/
def npIsClose (a b : ℚ) : Bool :=
  |a - b| ≤ 1 / 100000000 + (1 / 100000) * |b|

/-- `np.clip(arr, a_min=None, a_max=ceiling)` applied pointwise when a score
ceiling is configured. -/
def clipScores (ceiling : Option ℚ) (scores : List ℚ) : List ℚ :=
  match ceiling with
  | none => scores
  | some c => scores.map (fun s => min s c)

/-- `RetrievalService._normalize_scores`: empty input maps to empty output;
otherwise scores are clipped to the configured ceiling, and min-max scaled,
with an all-ones result when `np.isclose(max, min)`. -/
def normalize_scores (ceiling : Option ℚ) (scores : List ℚ) : List ℚ :=
  match scores with
  | [] => []
  | s :: rest =>
    let arr := clipScores ceiling (s :: rest)
    let mn := listMin arr
    let mx := listMax arr
    if npIsClose mx mn then arr.map (fun _ => 1)
    else arr.map (fun x => (x - mn) / (mx - mn))

/-- A hit returned by `vector_store.search_with_filters`, with its stored
metadata payload (modelled as a string-to-string association list; the
payload values the retrieval engine reads are all strings). -/
structure VectorSearchResult where
  id : String
  score : ℚ
  payload : List (String × String)
deriving Repr, DecidableEq

/-- `payload.get(key, default)`: plain dictionary lookup with a default. -/
def payloadGetD (p : List (String × String)) (key dflt : String) : String :=
  match p.find? (fun kv => kv.1 = key) with
  | some kv => kv.2
  | none => dflt

/-- `payload.get(key) or fallback`: dictionary lookup where both a missing
key and an empty-string value (falsy) fall back. -/
def payloadGetOr (p : List (String × String)) (key fallback : String) : String :=
  match p.find? (fun kv => kv.1 = key) with
  | some kv => if kv.2 = "" then fallback else kv.2
  | none => fallback

/-- `RetrievedChunk` from `backend/retrieval/models.py`. -/
structure RetrievedChunk where
  chunk_id : String
  document_id : String
  tenant_id : String
  score : ℚ
  normalized_score : ℚ
  content : String
  metadata : List (String × String)
deriving Repr, DecidableEq

/-- Diagnostics attached to a `RetrievalResponse`. `noDiag` is the empty dict
(diagnostics disabled), `reason` the `{"reason": ...}` dict of the
empty-embedding branch, `reasonTopK` the `no_results` variant which also
carries `requested_top_k`, and `full` the completed-search diagnostics
(requested top-k, raw result count, kept count, dropped-below-floor count and
the floor; the `score_stats` sub-dict is abstracted away — no claim touches
it and its standard deviation is not rational arithmetic). -/
inductive Diagnostics where
  | noDiag
  | reason (r : String)
  | reasonTopK (r : String) (requestedTopK : ℤ)
  | full (requestedTopK : ℤ) (raw kept dropped : Nat) (floor : ℚ)
deriving Repr, DecidableEq

/-- `RetrievalResponse` from `backend/retrieval/models.py`. -/
structure RetrievalResponse where
  chunks : List RetrievedChunk
  applied_filters : Option RetrievalFilters
  diagnostics : Diagnostics
deriving Repr, DecidableEq

/-- Exceptions that can escape `RetrievalService.retrieve`: the embedding
client's errors and the vector store's search errors (`retrieve` installs no
handler, so both propagate to the caller). -/
inductive RetrieveError where
  | embedFailure (e : EmbedError)
  | storeFailure (msg : String)
deriving Repr, DecidableEq

/-- Construction of one output `RetrievedChunk` from a search hit and its
normalized score (step 8 of the engine): `chunk_id` prefers a truthy
`chunk_id` payload field over the store id, `document_id` defaults to `""`,
`tenant_id` to the request tenant, and `content` prefers a truthy `content`
field, then a truthy `text` field, then `""`. -/
def buildChunk (tenant_id : String) (hit : VectorSearchResult)
    (norm : ℚ) : RetrievedChunk :=
  { chunk_id := payloadGetOr hit.payload "chunk_id" hit.id
    document_id := payloadGetD hit.payload "document_id" ""
    tenant_id := payloadGetD hit.payload "tenant_id" tenant_id
    score := hit.score
    normalized_score := norm
    content := payloadGetOr hit.payload "content"
      (payloadGetOr hit.payload "text" "")
    metadata := hit.payload }

/-- Filter normalisation at the head of `retrieve`: a missing filters object
is replaced by the default-constructed one, and the request stores `None`
when the resolved filters are empty. -/
def applied_filters_of (filters : Option RetrievalFilters) :
    Option RetrievalFilters :=
  let resolvedFilters := match filters with
    | none => RetrievalFilters.default
    | some f => f
  if resolvedFilters.is_empty then none else some resolvedFilters

/-- `RetrievalService.retrieve(query, tenant_id, filters=..., top_k=...)`.
The two injected collaborators appear as oracles: `embedOutcome` is the
result of `self._embedding_service.embed([query])` (a vector list or a raised
`EmbeddingServiceError`), and `searchOutcome v k` the result of
`self._vector_store.search_with_filters(...)` for query vector `v` and
resolved top-k `k` (hits or a raised `VectorStoreError`, abstracted to its
message). Filters are normalised, top-k resolved, the query embedded, the
store searched, scores normalised, floor-filtered in descending normalized
order, and chunks built from the hit payloads. -/
def retrieve (diagEnabled : Bool) (defaultTopK : ℤ) (floor : ℚ)
    (ceiling : Option ℚ) (tenant_id : String)
    (filters : Option RetrievalFilters) (top_k : Option ℤ)
    (embedOutcome : Except EmbedError (List (List ℚ)))
    (searchOutcome : List ℚ → ℤ → Except String (List VectorSearchResult)) :
    Except RetrieveError RetrievalResponse :=
  let reqFilters := applied_filters_of filters
  let k := resolve_top_k top_k defaultTopK
  match embedOutcome with
  | .error e => .error (.embedFailure e)
  | .ok [] =>
    .ok ⟨[], reqFilters,
      if diagEnabled then .reason "empty_embedding" else .noDiag⟩
  | .ok (v :: _) =>
    match searchOutcome v k with
    | .error msg => .error (.storeFailure msg)
    | .ok [] =>
      .ok ⟨[], reqFilters,
        if diagEnabled then .reasonTopK "no_results" k else .noDiag⟩
    | .ok (h :: hs) =>
      let results := h :: hs
      let normalized := normalize_scores ceiling (results.map (·.score))
      let sortedPairs :=
        (results.zip normalized).mergeSort (fun a b => b.2 ≤ a.2)
      let keptPairs := sortedPairs.filter (fun p => ¬ p.2 < floor)
      let dropped := (sortedPairs.filter (fun p => p.2 < floor)).length
      let kept := keptPairs.map (fun p => buildChunk tenant_id p.1 p.2)
      .ok ⟨kept, reqFilters,
        if diagEnabled then
          .full k results.length kept.length dropped floor
        else .noDiag⟩

/-- The external tokenizer capability (tiktoken's `cl100k_base` encoder in the
source): `encode` maps text to a token sequence and `decode` maps a token
sequence back to text. The chunker is parametric in it. -/
structure Encoder where
  encode : String → List Nat
  decode : List Nat → String

/-- The `Chunk` dataclass of `backend/ingestion/chunker.py`. -/
structure Chunk where
  text : String
  token_count : Nat
  sha256 : String
  index : Nat
deriving Repr, DecidableEq

/-- `_chunk_tokens(tokens, chunk_size, chunk_overlap)`: windows of at most
`chunk_size` tokens starting at `0, step, 2*step, ...` with `step = max(1,
chunk_size - chunk_overlap)`, for every start strictly below `len(tokens)` —
that is `ceil(len(tokens) / step)` windows. -/
def chunk_tokens (tokens : List Nat) (chunk_size chunk_overlap : Nat) :
    List (List Nat) :=
  let step := max 1 (chunk_size - chunk_overlap)
  (List.range ((tokens.length + step - 1) / step)).map
    (fun i => (tokens.drop (i * step)).take chunk_size)

/-- `chunk_text(text, chunk_size, chunk_overlap)`: empty text or an empty
token sequence yields no chunks; otherwise each (enumerated) token window is
decoded back to text and paired with its token count, the content hash
(`digest`, modelling `_sha256_text`) of the decoded text, and its sequence
index; empty windows are skipped (`if not token_slice: continue`). -/
def chunk_text (enc : Encoder) (digest : String → String) (text : String)
    (chunk_size chunk_overlap : Nat) : List Chunk :=
  if text = "" then []
  else
    let tokens := enc.encode text
    if tokens = [] then []
    else
      (chunk_tokens tokens chunk_size chunk_overlap).enum.filterMap
        (fun p =>
          if p.2 = [] then none
          else some ⟨enc.decode p.2, p.2.length, digest (enc.decode p.2), p.1⟩)

/-- `cosine_similarity(vec1, vec2)`: the dot product over the zipped
coordinates divided by the product of Euclidean norms, with similarity `0`
whenever either norm is zero. Vectors are real-valued, `math.sqrt` is the
real square root. -/
noncomputable def cosine_similarity (vec1 vec2 : List ℝ) : ℝ :=
  let dot := (List.zipWith (fun a b => a * b) vec1 vec2).sum
  let norm1 := Real.sqrt ((vec1.map (fun a => a * a)).sum)
  let norm2 := Real.sqrt ((vec2.map (fun b => b * b)).sum)
  if norm1 = 0 ∨ norm2 = 0 then 0 else dot / (norm1 * norm2)

/-- `is_duplicate_embedding(existing_embeddings, candidate, threshold)`:
Python's `any(cosine_similarity(e, candidate) >= threshold for e in
existing_embeddings)` as the corresponding existential (the source default
for `threshold` is `0.995`). -/
def is_duplicate_embedding (existing_embeddings : List (List ℝ))
    (candidate : List ℝ) (threshold : ℝ) : Prop :=
  ∃ e ∈ existing_embeddings, threshold ≤ cosine_similarity e candidate

/-- Lifecycle status of an `IngestionRun` row (stored as a string in the
source; `pending → running → {completed | failed}`). -/
inductive RunStatus where
  | pending
  | running
  | completed
  | failed
deriving Repr, DecidableEq

/-- Lifecycle status of a `Document` row (stored as a string in the source;
the schema admits `pending`, `processing`, `ready` and `failed`). -/
inductive DocStatus where
  | pending
  | processing
  | ready
  | failed
deriving Repr, DecidableEq

/-- The `IngestionEventType` constants of `backend/db/models.py`. -/
inductive EventKind where
  | runStarted
  | runCompleted
  | runFailed
  | documentStarted
  | documentSkipped
  | documentCompleted
  | chunkSkippedDuplicate
  | error
deriving Repr, DecidableEq

/-- Classes of Python exceptions distinguishable by the handlers of
`IngestionPipeline.ingest_directory`: the three shapes of
`EmbeddingServiceError` (of which `EmbeddingRetryableError` and
`EmbeddingTimeoutError` are subclasses), any `VectorStoreError` (a separate
hierarchy rooted directly at `Exception` — covering `VectorCollectionError`,
`VectorUpsertError` and `VectorSearchError`), and any other exception. -/
inductive PyExc where
  | embedRetryable
  | embedTimeout
  | embedService
  | vectorStore
  | other
deriving Repr, DecidableEq

/-- Whether `isinstance(exc, EmbeddingServiceError)` holds — the condition
under which the file loop's first two `except` clauses (which record the
error and re-raise) apply. `VectorStoreError` is not in this hierarchy. -/
def PyExc.isEmbeddingServiceError : PyExc → Bool
  | .embedRetryable => true
  | .embedTimeout => true
  | .embedService => true
  | .vectorStore => false
  | .other => false

/-- The mutable fields of the `IngestionRun` record that the pipeline
touches; timestamps are abstracted to whether they have been set. -/
structure RunRec where
  status : RunStatus
  startedAtSet : Bool
  finishedAtSet : Bool
  totalDocuments : Nat
  processedDocuments : Nat
  events : List EventKind
deriving Repr, DecidableEq

/-- Record one `IngestionEvent` for the run (`_record_event`). -/
def RunRec.addEvent (r : RunRec) (e : EventKind) : RunRec :=
  { r with events := r.events ++ [e] }

/-- Record several events in order. -/
def RunRec.addEvents (r : RunRec) (es : List EventKind) : RunRec :=
  { r with events := r.events ++ es }

/-- The `IngestionResult` dataclass. -/
structure IngestionResult where
  processed_documents : Nat
  skipped_documents : Nat
  failed_documents : Nat
  processed_chunks : Nat
  skipped_chunks : Nat
deriving Repr, DecidableEq

/-- A fresh `IngestionResult()`. -/
def IngestionResult.empty : IngestionResult := ⟨0, 0, 0, 0, 0⟩

/-- In-flight pipeline state: the in-memory run record, the snapshot of it
taken at the last `session.commit()`, the statuses of the `Document` rows
created so far, and the accumulated `IngestionResult`. -/
structure PipeState where
  run : RunRec
  committedRun : RunRec
  docs : List DocStatus
  result : IngestionResult
deriving Repr, DecidableEq

/-- `session.commit()`: the in-memory run record becomes durable. -/
def PipeState.commit (s : PipeState) : PipeState :=
  { s with committedRun := s.run }

/-- Oracle describing how one file behaves inside `_process_file`, in source
order: `extractErr` is an exception raised before the `Document` is created
(MIME sniffing, `read_bytes`, text extraction — e.g. a PDF parse failure);
`supported = false` means `_extract_text` returned `None` (unsupported MIME);
`duplicateDoc` means the content hash was already present for the tenant;
`hashDupChunks` counts chunks dropped by the in-document hash dedup (each
records a `chunk_skipped_duplicate` event); `batchErr` is an exception raised
during batched embedding / embedding-level dedup (`embedding_service.embed`
or `vector_store.has_similar_embedding`), which fires after the `Document`
was created in `processing` status; `embDupChunks` counts chunks dropped by
embedding-level dedup when the batches complete; `stagedChunks` is the number
of staged vector payloads; `upsertErr` is an exception raised by
`vector_store.upsert_batch`, which runs only when `stagedChunks ≠ 0` and
after the document was already marked `ready` and committed. -/
structure FileOracle where
  extractErr : Option PyExc
  supported : Bool
  duplicateDoc : Bool
  hashDupChunks : Nat
  embDupChunks : Nat
  stagedChunks : Nat
  batchErr : Option PyExc
  upsertErr : Option PyExc
deriving Repr, DecidableEq

/-- `IngestionPipeline._process_file` on one file: returns the updated state
and either `ok processed?` (the boolean the caller turns into a
processed/skipped count) or the exception that escaped. Mirrors the source
order: extraction, unsupported-MIME skip, content-hash skip, `Document`
creation in `processing` status with a `document_started` event, chunk-hash
dedup events, batch processing, chunk-row persistence with the `ready` status
mutation and a commit, vector upsert (skipped when nothing was staged), and
finally the `processed_documents` increment, `document_completed` event and
commit. -/
def processFile (o : FileOracle) (s : PipeState) : PipeState × Except PyExc Bool :=
  match o.extractErr with
  | some e => (s, .error e)
  | none =>
    if o.supported = false then
      ({ s with run := s.run.addEvent .documentSkipped }, .ok false)
    else if o.duplicateDoc then
      ({ s with run := s.run.addEvent .documentSkipped }, .ok false)
    else
      let s1 : PipeState :=
        { s with docs := s.docs ++ [DocStatus.processing],
                 run := s.run.addEvent .documentStarted }
      let s2 : PipeState :=
        { s1 with
            run := s1.run.addEvents
              (List.replicate o.hashDupChunks .chunkSkippedDuplicate),
            result := { s1.result with
              skipped_chunks := s1.result.skipped_chunks + o.hashDupChunks } }
      match o.batchErr with
      | some e => (s2, .error e)
      | none =>
        let s3 : PipeState :=
          { s2 with
              result := { s2.result with
                skipped_chunks := s2.result.skipped_chunks + o.embDupChunks } }
        let s4 : PipeState :=
          ({ s3 with docs := s3.docs.dropLast ++ [DocStatus.ready] }).commit
        let finish : PipeState → PipeState × Except PyExc Bool := fun st =>
          let st1 : PipeState :=
            { st with
                run := ({ st.run with
                  processedDocuments := st.run.processedDocuments + 1
                }).addEvent .documentCompleted,
                result := { st.result with
                  processed_chunks := st.result.processed_chunks + o.stagedChunks } }
          (st1.commit, .ok true)
        if o.stagedChunks ≠ 0 then
          match o.upsertErr with
          | some e => (s4, .error e)
          | none => finish s4
        else finish s4

/-- The `for file_path in files` loop of `ingest_directory` with its three
`except` clauses: a returned boolean bumps the processed/skipped counters; an
`EmbeddingRetryableError` or any other `EmbeddingServiceError` records an
`error` event and re-raises, aborting the loop; any other exception (in
particular every `VectorStoreError`) bumps `failed_documents`, records an
`error` event and lets the loop continue. -/
def fileLoop : List FileOracle → PipeState → PipeState × Option PyExc
  | [], s => (s, none)
  | o :: rest, s =>
    match processFile o s with
    | (s', .ok true) =>
      fileLoop rest
        { s' with result := { s'.result with
            processed_documents := s'.result.processed_documents + 1 } }
    | (s', .ok false) =>
      fileLoop rest
        { s' with result := { s'.result with
            skipped_documents := s'.result.skipped_documents + 1 } }
    | (s', .error e) =>
      if e.isEmbeddingServiceError then
        ({ s' with run := s'.run.addEvent .error }, some e)
      else
        fileLoop rest
          { s' with
              run := s'.run.addEvent .error,
              result := { s'.result with
                failed_documents := s'.result.failed_documents + 1 } }

/-- Exceptions escaping `ingest_directory`: the `ValueError` of
`_validate_path`, an exception from `_ensure_services` (vector-store or
embedding healthcheck / `ensure_collection`), or a re-raised file-loop
exception. -/
inductive PipeError where
  | invalidPath
  | serviceCheck (e : PyExc)
  | fileFailure (e : PyExc)
deriving Repr, DecidableEq

/-- Pipeline state at the head of the file loop: the run is `running` with
its start time set, the `run_started` event and the file count are recorded,
and both (source lines 77–85 commit after the `run_started` event and again
after `total_documents`, so the in-memory record equals the committed one
when the loop starts). -/
def startState (files : List FileOracle) (run0 : RunRec) : PipeState :=
  let run2 : RunRec := { run0 with
    status := RunStatus.running, startedAtSet := true,
    events := run0.events ++ [EventKind.runStarted],
    totalDocuments := files.length }
  ⟨run2, run2, [], IngestionResult.empty⟩

/-- Terminal state of a successful run: status `completed`, finish time set,
`run_completed` recorded, committed. -/
def completedState (s3 : PipeState) : PipeState :=
  ({ s3 with run := { s3.run with
      status := RunStatus.completed,
      finishedAtSet := true,
      events := s3.run.events ++ [EventKind.runCompleted] } }).commit

/-- Terminal state of an aborted run: status `failed` with the finish time
set and committed, then the `run_failed` event recorded and committed (the
source commits twice; the final in-memory and committed records coincide
either way). -/
def failedState (s3 : PipeState) : PipeState :=
  ({ s3 with run := (RunRec.addEvent
      { s3.run with status := RunStatus.failed, finishedAtSet := true }
      EventKind.runFailed) }).commit

/-- `IngestionPipeline.ingest_directory`: validate the path (before any state
change), run `_ensure_services` (still before any state change), transition
the run to `running` with its `run_started` event and commit, store the file
count and commit, then run the file loop inside `try`. On success the run is
marked `completed` with a `run_completed` event and committed; on a re-raised
file exception it is marked `failed` with the finish time and committed, then
the `run_failed` event is recorded and committed, and the exception
propagates. `pathValid` is the outcome of `_validate_path` and
`serviceCheckErr` the exception (if any) of `_ensure_services`. -/
def ingest_directory (pathValid : Bool) (serviceCheckErr : Option PyExc)
    (files : List FileOracle) (run0 : RunRec) :
    PipeState × Except PipeError IngestionResult :=
  let s0 : PipeState := ⟨run0, run0, [], IngestionResult.empty⟩
  if pathValid = false then (s0, .error .invalidPath)
  else
    match serviceCheckErr with
    | some e => (s0, .error (.serviceCheck e))
    | none =>
      match fileLoop files (startState files run0) with
      | (s3, none) => (completedState s3, .ok s3.result)
      | (s3, some e) => (failedState s3, .error (.fileFailure e))

/-- Oracle for the `embed_contract` witness: every attempt of every model
succeeds with the single two-dimensional vector `[1, 2]`. -/
def attOkC3 : String → Nat → HttpOutcome :=
  fun _ _ => .response 200 (some [some [1, 2]])

/-- Oracle for the `embed_timeout_policy` witness: model `a` always times
out, every other model would succeed. -/
def attTimeoutA : String → Nat → HttpOutcome :=
  fun m _ => if m = "a" then .netTimeout else .response 200 (some [some [1]])

/-- Toy tokenizer for concrete chunking runs: encode to character codes,
decode back to the string. -/
def toyEncoder : Encoder :=
  ⟨fun s => s.toList.map Char.toNat, fun ts => String.mk (ts.map Char.ofNat)⟩

/-- Toy content hash for concrete chunking runs (the identity on text). -/
def toyDigest : String → String := fun s => s

/-- Search oracle for the `retrieve_error_handling` witness: the vector
store always raises. -/
def searchDown : List ℚ → ℤ → Except String (List VectorSearchResult) :=
  fun _ _ => .error "down"

/-- The exception/return outcome of `_process_file` on one file; it depends
only on the file's oracle, never on the pipeline state (see
`processFile_outcome`). -/
def fileOutcome (o : FileOracle) : Except PyExc Bool :=
  match o.extractErr with
  | some e => .error e
  | none =>
    if o.supported = false then .ok false
    else if o.duplicateDoc then .ok false
    else match o.batchErr with
      | some e => .error e
      | none =>
        if o.stagedChunks ≠ 0 then
          match o.upsertErr with
          | some e => .error e
          | none => .ok true
        else .ok true

/-- Whether `_process_file` raises on this file. -/
def isErrorOutcome (o : FileOracle) : Bool :=
  match fileOutcome o with
  | .error _ => true
  | .ok _ => false

/-- Whether `_process_file` raises an exception that the file loop re-raises
(an `EmbeddingServiceError`, aborting the run). -/
def isFatalFile (o : FileOracle) : Bool :=
  match fileOutcome o with
  | .error e => e.isEmbeddingServiceError
  | .ok _ => false

/-- A fresh `pending` run record with no events. -/
def pendingRun : RunRec := ⟨RunStatus.pending, false, false, 0, 0, []⟩

/-- A file whose embedding-level dedup / batch stage raises a
`VectorStoreError` (e.g. `has_similar_embedding` failing after retries). -/
def fileVectorStoreFailure : FileOracle :=
  ⟨none, true, false, 0, 0, 1, some .vectorStore, none⟩

/-- A file whose batch embedding raises an `EmbeddingRetryableError` (retry
exhaustion inside `EmbeddingService.embed`). -/
def fileEmbedFailure : FileOracle :=
  ⟨none, true, false, 0, 0, 0, some .embedRetryable, none⟩

/-- A file whose text extraction raises an unexpected (non-infrastructure)
exception before any `Document` is created. -/
def fileExtractFailure : FileOracle :=
  ⟨some .other, true, false, 0, 0, 0, none, none⟩

/-- A file whose vector upsert raises a `VectorStoreError` after the
document was already marked `ready` and committed. -/
def fileUpsertFailure : FileOracle :=
  ⟨none, true, false, 0, 0, 1, none, some .vectorStore⟩

/-! ## Theorems -/

theorem foldl_min_le_init (l : List ℚ) : ∀ a : ℚ, l.foldl min a ≤ a := by
  induction l with
  | nil => intro a; exact le_refl a
  | cons x xs ih =>
    intro a
    exact le_trans (ih (min a x)) (min_le_left a x)

theorem foldl_min_le_mem (l : List ℚ) : ∀ (a y : ℚ), y ∈ l → l.foldl min a ≤ y := by
  induction l with
  | nil => intro a y hy; cases hy
  | cons x xs ih =>
    intro a y hy
    rcases List.mem_cons.mp hy with h | h
    · subst h
      exact le_trans (foldl_min_le_init xs (min a y)) (min_le_right a y)
    · exact ih (min a x) y h

theorem init_le_foldl_max (l : List ℚ) : ∀ a : ℚ, a ≤ l.foldl max a := by
  induction l with
  | nil => intro a; exact le_refl a
  | cons x xs ih =>
    intro a
    exact le_trans (le_max_left a x) (ih (max a x))

theorem mem_le_foldl_max (l : List ℚ) : ∀ (a y : ℚ), y ∈ l → y ≤ l.foldl max a := by
  induction l with
  | nil => intro a y hy; cases hy
  | cons x xs ih =>
    intro a y hy
    rcases List.mem_cons.mp hy with h | h
    · subst h
      exact le_trans (le_max_right a y) (init_le_foldl_max xs (max a y))
    · exact ih (max a x) y h

theorem listMin_le_mem {l : List ℚ} {y : ℚ} (hy : y ∈ l) : listMin l ≤ y := by
  cases l with
  | nil => cases hy
  | cons x xs =>
    rcases List.mem_cons.mp hy with h | h
    · subst h; exact foldl_min_le_init xs y
    · exact foldl_min_le_mem xs x y h

theorem mem_le_listMax {l : List ℚ} {y : ℚ} (hy : y ∈ l) : y ≤ listMax l := by
  cases l with
  | nil => cases hy
  | cons x xs =>
    rcases List.mem_cons.mp hy with h | h
    · subst h; exact init_le_foldl_max xs y
    · exact mem_le_foldl_max xs x y h

/-- Claim C4, counterexample: the claim says every explicit `top_k <= 0`
falls back to the configured default, but for the explicit value `-1` (a
truthy Python int) the code keeps it and clamps to `1`, not to the default
`5`. -/
theorem resolve_top_k_counterexample :
    resolve_top_k (some (-1)) 5 = 1 ∧ resolve_top_k (some (-1)) 5 ≠ 5 :=
  ⟨by decide, by decide⟩

/-- Claim C4 (amended): the effective `top_k` equals the caller's explicit
value when that value is `>= 1`; the configured default (clamped to a minimum
of `1`) is used exactly when the caller passed no value or the explicit value
`0`; a negative explicit value is clamped to `1` (the default is not used);
and the resolved value is always at least `1`. -/
theorem resolve_top_k_spec (k d : ℤ) :
    (1 ≤ k → resolve_top_k (some k) d = k) ∧
    resolve_top_k none d = max d 1 ∧
    resolve_top_k (some 0) d = max d 1 ∧
    (k < 0 → resolve_top_k (some k) d = 1) ∧
    1 ≤ resolve_top_k (some k) d := by
  have h : resolve_top_k (some k) d = max (if k = 0 then d else k) 1 := rfl
  refine ⟨?_, rfl, by simp [resolve_top_k], ?_, h ▸ le_max_right _ 1⟩
  · intro hk
    rw [h, if_neg (by omega : ¬ k = 0)]
    exact max_eq_left hk
  · intro hk
    rw [h, if_neg (by omega : ¬ k = 0)]
    exact max_eq_right (by omega)

/-- Witness for `resolve_top_k_spec` at the explicit values `3` and `-2`
against the default `5`. -/
theorem resolve_top_k_spec_witness :
    ((1 : ℤ) ≤ 3 ∧ resolve_top_k (some 3) 5 = 3) ∧
    ((-2 : ℤ) < 0 ∧ resolve_top_k (some (-2)) 5 = 1) :=
  ⟨⟨by decide, (resolve_top_k_spec 3 5).1 (by decide)⟩,
   ⟨by decide, (resolve_top_k_spec (-2) 5).2.2.2.1 (by decide)⟩⟩

/-- Unfolding equation for `normalize_scores` on a non-empty list. -/
theorem normalize_scores_cons (ceiling : Option ℚ) (s : ℚ) (rest : List ℚ) :
    normalize_scores ceiling (s :: rest) =
      if npIsClose (listMax (clipScores ceiling (s :: rest)))
          (listMin (clipScores ceiling (s :: rest))) then
        (clipScores ceiling (s :: rest)).map (fun _ => 1)
      else
        (clipScores ceiling (s :: rest)).map
          (fun x => (x - listMin (clipScores ceiling (s :: rest))) /
            (listMax (clipScores ceiling (s :: rest)) -
              listMin (clipScores ceiling (s :: rest)))) := rfl

/-- Clipping preserves the batch size. -/
theorem clipScores_length (c : Option ℚ) (l : List ℚ) :
    (clipScores c l).length = l.length := by
  cases c <;> simp [clipScores]

/-- Clipping a non-empty batch leaves it non-empty. -/
theorem clipScores_ne_nil {c : Option ℚ} {l : List ℚ} (h : l ≠ []) :
    clipScores c l ≠ [] := by
  cases c
  · exact h
  · simpa [clipScores] using h

/-- Any rational is `np.isclose` to itself. -/
theorem npIsClose_self (a : ℚ) : npIsClose a a = true := by
  simp only [npIsClose, sub_self, abs_zero, decide_eq_true_eq]
  positivity

/-- Claim C6: on a non-empty batch, `_normalize_scores` clips to the ceiling
and min-max scales so that the output has one score per input, every
normalized score lies in `[0, 1]`, and whenever the clipped maximum equals
the clipped minimum (all scores tied, in particular a singleton batch) every
normalized score is exactly `1`. -/
theorem normalize_scores_spec (ceiling : Option ℚ) (scores : List ℚ)
    (hne : scores ≠ []) :
    (normalize_scores ceiling scores).length = scores.length ∧
    (∀ y ∈ normalize_scores ceiling scores, 0 ≤ y ∧ y ≤ 1) ∧
    (listMax (clipScores ceiling scores) = listMin (clipScores ceiling scores) →
     ∀ y ∈ normalize_scores ceiling scores, y = 1) := by
  cases scores with
  | nil => exact absurd rfl hne
  | cons s rest =>
    have harrne : clipScores ceiling (s :: rest) ≠ [] :=
      clipScores_ne_nil (by simp)
    obtain ⟨x0, hx0⟩ := List.exists_mem_of_ne_nil _ harrne
    have hminmax : listMin (clipScores ceiling (s :: rest)) ≤
        listMax (clipScores ceiling (s :: rest)) :=
      le_trans (listMin_le_mem hx0) (mem_le_listMax hx0)
    rw [normalize_scores_cons]
    by_cases hcl : npIsClose (listMax (clipScores ceiling (s :: rest)))
        (listMin (clipScores ceiling (s :: rest)))
    · rw [if_pos hcl]
      refine ⟨by simp [clipScores_length], ?_, ?_⟩
      · intro y hy
        rcases List.mem_map.mp hy with ⟨x, _, rfl⟩
        exact ⟨zero_le_one, le_refl 1⟩
      · intro _ y hy
        rcases List.mem_map.mp hy with ⟨x, _, rfl⟩
        rfl
    · rw [if_neg hcl]
      have hgap : listMin (clipScores ceiling (s :: rest)) <
          listMax (clipScores ceiling (s :: rest)) := by
        rcases lt_or_eq_of_le hminmax with h | h
        · exact h
        · refine absurd ?_ hcl
          rw [h]
          exact npIsClose_self _
      have hpos : 0 < listMax (clipScores ceiling (s :: rest)) -
          listMin (clipScores ceiling (s :: rest)) := sub_pos.mpr hgap
      refine ⟨by simp [clipScores_length], ?_, ?_⟩
      · intro y hy
        rcases List.mem_map.mp hy with ⟨x, hx, rfl⟩
        constructor
        · exact div_nonneg (sub_nonneg.mpr (listMin_le_mem hx)) (le_of_lt hpos)
        · exact (div_le_one hpos).mpr (sub_le_sub_right (mem_le_listMax hx) _)
      · intro heq
        refine absurd ?_ hcl
        rw [heq]
        exact npIsClose_self _

/-- Witness for `normalize_scores_spec` on the batch `[0.8, 0.5, 0.3]` with
ceiling `0.95`. -/
theorem normalize_scores_spec_witness :
    ([(4 : ℚ)/5, 1/2, 3/10] ≠ []) ∧
    (∀ y ∈ normalize_scores (some (19/20)) [(4 : ℚ)/5, 1/2, 3/10],
      0 ≤ y ∧ y ≤ 1) :=
  ⟨by decide, (normalize_scores_spec (some (19/20)) [(4 : ℚ)/5, 1/2, 3/10]
    (by decide)).2.1⟩

/-- Zipping a list with itself under multiplication squares pointwise. -/
theorem zipWith_mul_self (l : List ℝ) :
    List.zipWith (fun a b => a * b) l l = l.map (fun a => a * a) := by
  induction l with
  | nil => rfl
  | cons x xs ih => simp [ih]

/-- A sum of squares of real coordinates is nonnegative. -/
theorem sum_sq_nonneg (l : List ℝ) : 0 ≤ (l.map (fun a => a * a)).sum := by
  refine List.sum_nonneg ?_
  intro x hx
  rcases List.mem_map.mp hx with ⟨a, _, rfl⟩
  exact mul_self_nonneg a

/-- Cosine similarity of a vector with itself is `1` whenever the vector has
a nonzero coordinate (its sum of squares is nonzero). -/
theorem cosine_similarity_self (v : List ℝ)
    (h : (v.map (fun a => a * a)).sum ≠ 0) : cosine_similarity v v = 1 := by
  have hS : 0 ≤ (v.map (fun a => a * a)).sum := sum_sq_nonneg v
  have hpos : 0 < (v.map (fun a => a * a)).sum := lt_of_le_of_ne hS (Ne.symm h)
  have hsq : Real.sqrt ((v.map (fun a => a * a)).sum) ≠ 0 :=
    ne_of_gt (Real.sqrt_pos.mpr hpos)
  simp only [cosine_similarity, zipWith_mul_self]
  rw [if_neg (by push_neg; exact ⟨hsq, hsq⟩)]
  rw [Real.mul_self_sqrt hS, div_self h]

/-- Cosine similarity is `0` when the dot product vanishes (whether or not a
norm is zero). -/
theorem cosine_similarity_of_dot_zero (v w : List ℝ)
    (h : (List.zipWith (fun a b => a * b) v w).sum = 0) :
    cosine_similarity v w = 0 := by
  simp only [cosine_similarity]
  by_cases hz : Real.sqrt ((v.map (fun a => a * a)).sum) = 0 ∨
      Real.sqrt ((w.map (fun b => b * b)).sum) = 0
  · rw [if_pos hz]
  · rw [if_neg hz, h, zero_div]

/-- Claim C9: `is_duplicate_embedding` holds exactly when some existing
embedding has cosine similarity at least the threshold with the candidate
(cosine similarity being dot over the product of Euclidean norms, `0` at a
zero norm); for any threshold at most `1` (the source default is `0.995`) a
candidate identical to a stored vector with nonzero sum of squares is a
duplicate; and for a positive threshold a candidate orthogonal to every
stored vector is not. -/
theorem is_duplicate_embedding_spec (existing_embeddings : List (List ℝ))
    (candidate : List ℝ) (threshold : ℝ) :
    (is_duplicate_embedding existing_embeddings candidate threshold ↔
      ∃ e ∈ existing_embeddings, threshold ≤ cosine_similarity e candidate) ∧
    (threshold ≤ 1 → candidate ∈ existing_embeddings →
      (candidate.map (fun a => a * a)).sum ≠ 0 →
      is_duplicate_embedding existing_embeddings candidate threshold) ∧
    (0 < threshold →
      (∀ e ∈ existing_embeddings,
        (List.zipWith (fun a b => a * b) e candidate).sum = 0) →
      ¬ is_duplicate_embedding existing_embeddings candidate threshold) := by
  refine ⟨Iff.rfl, ?_, ?_⟩
  · intro hθ hmem hS
    exact ⟨candidate, hmem, by rw [cosine_similarity_self candidate hS]; exact hθ⟩
  · intro hθ hOrtho hdup
    obtain ⟨e, hmem, hle⟩ := hdup
    rw [cosine_similarity_of_dot_zero e candidate (hOrtho e hmem)] at hle
    linarith

/-- Witness for `is_duplicate_embedding_spec`: against the stored set
`[[1, 0]]` and threshold `0.995`, the identical candidate `[1, 0]` is a
duplicate and the orthogonal candidate `[0, 1]` is not. -/
theorem is_duplicate_embedding_spec_witness :
    ((0.995 : ℝ) ≤ 1 ∧
      is_duplicate_embedding [[(1 : ℝ), 0]] [1, 0] 0.995) ∧
    ((0 : ℝ) < 0.995 ∧
      ¬ is_duplicate_embedding [[(1 : ℝ), 0]] [0, 1] 0.995) := by
  constructor
  · refine ⟨by norm_num, ?_⟩
    refine (is_duplicate_embedding_spec [[(1 : ℝ), 0]] [1, 0] 0.995).2.1
      (by norm_num) (by simp) ?_
    norm_num
  · refine ⟨by norm_num, ?_⟩
    refine (is_duplicate_embedding_spec [[(1 : ℝ), 0]] [0, 1] 0.995).2.2
      (by norm_num) ?_
    intro e he
    rcases List.mem_singleton.mp he with rfl
    norm_num

/-- A successful item extraction yields one vector per item, each of the
configured dimension. -/
theorem extractVectors_ok (dim : Nat) :
    ∀ (items : List (Option (List ℚ))) (vecs : List (List ℚ)),
      extractVectors dim items = some vecs →
      vecs.length = items.length ∧ ∀ v ∈ vecs, v.length = dim := by
  intro items
  induction items with
  | nil =>
    intro vecs h
    simp only [extractVectors, Option.some.injEq] at h
    subst h
    exact ⟨rfl, by intro v hv; cases hv⟩
  | cons it rest ih =>
    intro vecs h
    cases it with
    | none => simp [extractVectors] at h
    | some v =>
      simp only [extractVectors] at h
      by_cases hv : v.length = dim
      · rw [if_pos hv] at h
        cases hrec : extractVectors dim rest with
        | none => rw [hrec] at h; simp at h
        | some tail =>
          rw [hrec] at h
          simp only [Option.map_some', Option.some.injEq] at h
          subst h
          obtain ⟨hlen, hall⟩ := ih tail hrec
          refine ⟨by simp [hlen], ?_⟩
          intro w hw
          rcases List.mem_cons.mp hw with rfl | hw'
          · exact hv
          · exact hall w hw'
      · rw [if_neg hv] at h; cases h

/-- An item with a missing vector or a vector of the wrong length makes
extraction fail. -/
theorem extractVectors_bad (dim : Nat) :
    ∀ (items : List (Option (List ℚ))),
      (∃ it ∈ items, it = none ∨ ∃ v, it = some v ∧ v.length ≠ dim) →
      extractVectors dim items = none := by
  intro items
  induction items with
  | nil => rintro ⟨it, hmem, _⟩; cases hmem
  | cons a rest ih =>
    rintro ⟨it, hmem, hbad⟩
    rcases List.mem_cons.mp hmem with rfl | hmem'
    · rcases hbad with rfl | ⟨v, rfl, hv⟩
      · rfl
      · simp [extractVectors, hv]
    · cases a with
      | none => rfl
      | some v =>
        simp only [extractVectors]
        by_cases hv : v.length = dim
        · rw [if_pos hv, ih ⟨it, hmem', hbad⟩]; rfl
        · rw [if_neg hv]

/-- A successful `_request_embeddings` returns one vector per input text,
each of the configured dimension. -/
theorem request_embeddings_ok (dim : Nat) (model : String) (texts : List String)
    (o : HttpOutcome) (vecs : List (List ℚ))
    (h : request_embeddings dim model texts o = .ok vecs) :
    vecs.length = texts.length ∧ ∀ v ∈ vecs, v.length = dim := by
  cases o with
  | netTimeout => exact Except.noConfusion h
  | netError => exact Except.noConfusion h
  | response status data =>
    simp only [request_embeddings] at h
    by_cases h1 : 500 ≤ status ∨ status = 408 ∨ status = 429
    · rw [if_pos h1] at h; exact Except.noConfusion h
    · rw [if_neg h1] at h
      by_cases h2 : 400 ≤ status
      · rw [if_pos h2] at h; exact Except.noConfusion h
      · rw [if_neg h2] at h
        cases data with
        | none => exact Except.noConfusion h
        | some items =>
          replace h : (if items = [] then
              Except.error (EmbedError.service model)
            else
              match extractVectors dim items with
              | none => Except.error (EmbedError.service model)
              | some vecs' =>
                if vecs'.length = texts.length then Except.ok vecs'
                else Except.error (EmbedError.service model)) =
              Except.ok vecs := h
          by_cases h3 : items = []
          · rw [if_pos h3] at h; exact Except.noConfusion h
          · rw [if_neg h3] at h
            cases hrec : extractVectors dim items with
            | none => rw [hrec] at h; exact Except.noConfusion h
            | some vs =>
              rw [hrec] at h
              replace h : (if vs.length = texts.length then Except.ok vs
                  else Except.error (EmbedError.service model)) =
                  Except.ok vecs := h
              by_cases h4 : vs.length = texts.length
              · rw [if_pos h4] at h
                injection h with h5
                subst h5
                exact ⟨h4, (extractVectors_ok dim items vs hrec).2⟩
              · rw [if_neg h4] at h; exact Except.noConfusion h

/-- A successful retry loop comes from some successful attempt. -/
theorem retryCall_ok (f : Nat → Except EmbedError (List (List ℚ))) :
    ∀ (fuel attempt : Nat) (v : List (List ℚ)),
      retryCall f attempt fuel = .ok v → ∃ j, f j = .ok v := by
  intro fuel
  induction fuel with
  | zero => intro attempt v h; exact ⟨attempt, h⟩
  | succ n ih =>
    intro attempt v h
    simp only [retryCall] at h
    cases hf : f attempt with
    | ok w => rw [hf] at h; injection h with h1; exact ⟨attempt, by rw [hf, h1]⟩
    | error e =>
      rw [hf] at h
      replace h : (if e.retriedByPolicy = true then retryCall f (attempt + 1) n
          else Except.error e) = Except.ok v := h
      by_cases hr : e.retriedByPolicy = true
      · rw [if_pos hr] at h
        exact ih (attempt + 1) v h
      · rw [if_neg hr] at h
        exact Except.noConfusion h

/-- A successful fallback loop comes from some model's successful retry
wrapper. -/
theorem embedLoop_ok (dim : Nat) (texts : List String) (allModels : List String)
    (attempts : String → Nat → HttpOutcome) :
    ∀ (ms : List String) (v : List (List ℚ)),
      embedLoop dim texts allModels attempts ms = .ok v →
      ∃ m, embed_with_retry dim m texts (attempts m) = .ok v := by
  intro ms
  induction ms with
  | nil => intro v h; exact Except.noConfusion h
  | cons m rest ih =>
    intro v h
    simp only [embedLoop] at h
    cases hm : embed_with_retry dim m texts (attempts m) with
    | ok w => rw [hm] at h; injection h with h1; exact ⟨m, by rw [hm, h1]⟩
    | error e =>
      rw [hm] at h
      cases e with
      | timeout s => exact Except.noConfusion h
      | retryable s => exact ih v h
      | service s => exact ih v h
      | aggregate l => exact ih v h

/-- Claim C3: `embed` on the empty input returns the empty output; a
successful `embed` returns exactly one vector per input text (same count,
same order) with every vector of the configured dimension; and a response
whose body has a missing/wrong-length vector or a count mismatch is a plain
(non-retryable) `EmbeddingServiceError` for that model, raised by the retry
wrapper after the single attempt without any retry. -/
theorem embed_contract (dim : Nat) (model : String)
    (fallback_models : List String) (texts : List String)
    (attempts : String → Nat → HttpOutcome) :
    embed dim model fallback_models [] attempts = .ok [] ∧
    (∀ vecs, embed dim model fallback_models texts attempts = .ok vecs →
      vecs.length = texts.length ∧ ∀ v ∈ vecs, v.length = dim) ∧
    (∀ (status : Nat) (items : List (Option (List ℚ))),
      status < 400 → items ≠ [] →
      ((∃ it ∈ items, it = none ∨ ∃ v, it = some v ∧ v.length ≠ dim) ∨
        (∃ vs, extractVectors dim items = some vs ∧ vs.length ≠ texts.length)) →
      request_embeddings dim model texts (.response status (some items)) =
        .error (.service model) ∧
      (∀ att : Nat → HttpOutcome, att 0 = .response status (some items) →
        embed_with_retry dim model texts att = .error (.service model))) := by
  refine ⟨rfl, ?_, ?_⟩
  · intro vecs h
    by_cases ht : texts = []
    · subst ht
      simp only [embed, if_pos rfl] at h
      injection h with h1
      subst h1
      exact ⟨rfl, by intro v hv; cases hv⟩
    · simp only [embed, if_neg ht] at h
      obtain ⟨m, hm⟩ := embedLoop_ok dim texts _ attempts _ vecs h
      simp only [embed_with_retry] at hm
      obtain ⟨j, hj⟩ := retryCall_ok _ 2 0 vecs hm
      exact request_embeddings_ok dim m texts (attempts m j) vecs hj
  · intro status items hst hne hbad
    have h1 : ¬ (500 ≤ status ∨ status = 408 ∨ status = 429) := by omega
    have h2 : ¬ 400 ≤ status := by omega
    have hserv : request_embeddings dim model texts
        (.response status (some items)) = .error (.service model) := by
      simp only [request_embeddings]
      rw [if_neg h1, if_neg h2]
      rcases hbad with hb | ⟨vs, hvs, hlen⟩
      · rw [if_neg hne, extractVectors_bad dim items hb]
      · rw [if_neg hne, hvs]
        show (if vs.length = texts.length then Except.ok vs
          else Except.error (EmbedError.service model)) =
          Except.error (EmbedError.service model)
        rw [if_neg hlen]
    refine ⟨hserv, ?_⟩
    intro att hatt
    have hreq : request_embeddings dim model texts (att 0) =
        .error (.service model) := by rw [hatt]; exact hserv
    simp only [embed_with_retry, retryCall, hreq]
    simp [EmbedError.retriedByPolicy]

/-- Witness for `embed_contract`: empty input yields empty output, the
successful call on one text yields one vector of length 2, and a
one-dimensional vector in the body is a non-retryable service error. -/
theorem embed_contract_witness :
    embed 2 "a" [] ([] : List String) attOkC3 = .ok [] ∧
    ([[(1 : ℚ), 2]].length = (["x"] : List String).length ∧
      ∀ v ∈ [[(1 : ℚ), 2]], v.length = 2) ∧
    request_embeddings 2 "a" ["x"] (.response 200 (some [some [(1 : ℚ)]])) =
      .error (.service "a") :=
  ⟨(embed_contract 2 "a" [] [] attOkC3).1,
   (embed_contract 2 "a" [] ["x"] attOkC3).2.1 [[1, 2]] (by decide),
   ((embed_contract 2 "a" [] ["x"] attOkC3).2.2 200 [some [1]] (by decide)
      (by decide)
      (Or.inl ⟨some [1], by decide, Or.inr ⟨[1], rfl, by decide⟩⟩)).1⟩

/-- Models that fail with a non-timeout error under the retry wrapper are
skipped by the fallback loop. -/
theorem embedLoop_skip (dim : Nat) (texts : List String) (allModels : List String)
    (attempts : String → Nat → HttpOutcome) :
    ∀ (pre ms : List String),
      (∀ p ∈ pre, ∃ ep, embed_with_retry dim p texts (attempts p) = .error ep ∧
        ep.isTimeout = false) →
      embedLoop dim texts allModels attempts (pre ++ ms) =
        embedLoop dim texts allModels attempts ms := by
  intro pre
  induction pre with
  | nil => intro ms _; rfl
  | cons p pre' ih =>
    intro ms hpre
    obtain ⟨ep, hep, hto⟩ := hpre p (List.mem_cons_self p pre')
    have hrest : ∀ q ∈ pre', ∃ eq',
        embed_with_retry dim q texts (attempts q) = .error eq' ∧
        eq'.isTimeout = false :=
      fun q hq => hpre q (List.mem_cons_of_mem p hq)
    simp only [List.cons_append, embedLoop, hep]
    cases ep with
    | timeout s => simp [EmbedError.isTimeout] at hto
    | retryable s => exact ih ms hrest
    | service s => exact ih ms hrest
    | aggregate l => exact ih ms hrest

/-- Claim C2: with a non-empty input, when the fallback list reaches a model
whose bounded retries end in a timeout, `embed` raises exactly that timeout
error, and the result does not depend on the attempt oracle of any model
after it (later fallbacks are not attempted); whereas a model whose retry
wrapper fails with any non-timeout error makes the loop advance to the next
model. -/
theorem embed_timeout_policy (dim : Nat) (model : String)
    (fallback_models : List String) (texts : List String)
    (attempts : String → Nat → HttpOutcome) (pre rest : List String)
    (m : String) (hne : texts ≠ [])
    (hsplit : model :: fallback_models = pre ++ m :: rest)
    (hpre : ∀ p ∈ pre, ∃ ep,
      embed_with_retry dim p texts (attempts p) = .error ep ∧
      ep.isTimeout = false) :
    (∀ tm, embed_with_retry dim m texts (attempts m) = .error (.timeout tm) →
      embed dim model fallback_models texts attempts = .error (.timeout tm) ∧
      ∀ attempts' : String → Nat → HttpOutcome,
        (∀ q ∈ pre, ∃ eq',
          embed_with_retry dim q texts (attempts' q) = .error eq' ∧
          eq'.isTimeout = false) →
        attempts' m = attempts m →
        embed dim model fallback_models texts attempts' =
          .error (.timeout tm)) ∧
    (∀ e, embed_with_retry dim m texts (attempts m) = .error e →
      e.isTimeout = false →
      embedLoop dim texts (model :: fallback_models) attempts
          (pre ++ m :: rest) =
        embedLoop dim texts (model :: fallback_models) attempts rest) := by
  constructor
  · intro tm htm
    have hmain : embed dim model fallback_models texts attempts =
        .error (.timeout tm) := by
      simp only [embed, if_neg hne]
      rw [hsplit, embedLoop_skip dim texts _ attempts pre (m :: rest) hpre]
      simp only [embedLoop, htm]
    refine ⟨hmain, ?_⟩
    intro attempts' hpre' hagree
    simp only [embed, if_neg hne]
    rw [hsplit, embedLoop_skip dim texts _ attempts' pre (m :: rest) hpre']
    simp only [embedLoop, hagree, htm]
  · intro e he hto
    rw [embedLoop_skip dim texts _ attempts pre (m :: rest) hpre]
    simp only [embedLoop, he]
    cases e with
    | timeout s => simp [EmbedError.isTimeout] at hto
    | retryable s => rfl
    | service s => rfl
    | aggregate l => rfl

/-- Witness for `embed_timeout_policy`: with primary model `a` timing out on
all three attempts and a fallback `b` that would succeed, `embed` raises the
timeout of `a` without using `b`. -/
theorem embed_timeout_policy_witness :
    (["x"] : List String) ≠ [] ∧
    embed_with_retry 1 "a" ["x"] (attTimeoutA "a") = .error (.timeout "a") ∧
    embed 1 "a" ["b"] ["x"] attTimeoutA = .error (.timeout "a") :=
  ⟨by decide, by decide,
   ((embed_timeout_policy 1 "a" ["b"] ["x"] attTimeoutA [] ["b"] "a"
      (by decide) rfl (by intro p hp; cases hp)).1 "a" (by decide)).1⟩

/-- A `filterMap` that never drops an element is a `map`. -/
theorem filterMap_eq_map_of_some {α β : Type _} (f : α → Option β) (g : α → β) :
    ∀ l : List α, (∀ a ∈ l, f a = some (g a)) → l.filterMap f = l.map g := by
  intro l
  induction l with
  | nil => intro _; rfl
  | cons a rest ih =>
    intro h
    rw [List.filterMap_cons, h a (List.mem_cons_self a rest), List.map_cons,
      ih (fun b hb => h b (List.mem_cons_of_mem a hb))]

/-- Length of the window list produced by `_chunk_tokens`. -/
theorem chunk_tokens_length (tokens : List Nat) (cs co : Nat) :
    (chunk_tokens tokens cs co).length =
      (tokens.length + max 1 (cs - co) - 1) / max 1 (cs - co) := by
  simp [chunk_tokens]

/-- The `i`-th window produced by `_chunk_tokens` starts at token `i * step`
and carries at most `cs` tokens. -/
theorem chunk_tokens_getElem (tokens : List Nat) (cs co : Nat) (i : Nat)
    (h : i < (chunk_tokens tokens cs co).length) :
    (chunk_tokens tokens cs co)[i] =
      (tokens.drop (i * max 1 (cs - co))).take cs := by
  simp only [chunk_tokens] at h ⊢
  simp only [List.getElem_map, List.getElem_range]

/-- Every window index admitted by the ceiling-division count starts strictly
inside the token list. -/
theorem mul_step_lt (len step i : Nat) (hstep : 0 < step)
    (hi : i < (len + step - 1) / step) : i * step < len := by
  have h1 : i + 1 ≤ (len + step - 1) / step := hi
  have h2 : (i + 1) * step ≤ len + step - 1 :=
    (Nat.le_div_iff_mul_le hstep).mp h1
  rw [Nat.succ_mul] at h2
  omega

/-- A window starting inside a token list is non-empty when `cs` is
positive. -/
theorem slice_ne_nil (tokens : List Nat) (cs start : Nat) (hcs : 0 < cs)
    (hlt : start < tokens.length) :
    (tokens.drop start).take cs ≠ [] := by
  have h : 0 < ((tokens.drop start).take cs).length := by
    simp only [List.length_take, List.length_drop]
    omega
  exact List.ne_nil_of_length_pos h

/-- Claim C8: with `chunk_overlap < chunk_size`, chunking empty text or text
whose token sequence is empty returns the empty chunk sequence; otherwise the
chunk list consists of exactly one chunk per window start
`i * max 1 (chunk_size - chunk_overlap)` for `i` ranging over the
ceiling-division count, each carrying the decoded window text, its token
count, the content hash of the decoded text and the sequence index `i`;
every chunk carries at most `chunk_size` tokens; and rechunking identical
text with identical parameters yields an identical chunk sequence (in this
pure functional embedding the final equality is definitional — the source
has no hidden state, as the theorem's other conjuncts make precise by fixing
the output as a function of the inputs alone). -/
theorem chunk_text_spec (enc : Encoder) (digest : String → String)
    (text : String) (chunk_size chunk_overlap : Nat)
    (hov : chunk_overlap < chunk_size) :
    chunk_text enc digest "" chunk_size chunk_overlap = [] ∧
    (enc.encode text = [] →
      chunk_text enc digest text chunk_size chunk_overlap = []) ∧
    (text ≠ "" → enc.encode text ≠ [] →
      chunk_text enc digest text chunk_size chunk_overlap =
        (List.range (((enc.encode text).length +
            max 1 (chunk_size - chunk_overlap) - 1) /
            max 1 (chunk_size - chunk_overlap))).map
          (fun i =>
            { text := enc.decode (((enc.encode text).drop
                (i * max 1 (chunk_size - chunk_overlap))).take chunk_size)
              token_count := (((enc.encode text).drop
                (i * max 1 (chunk_size - chunk_overlap))).take chunk_size).length
              sha256 := digest (enc.decode (((enc.encode text).drop
                (i * max 1 (chunk_size - chunk_overlap))).take chunk_size))
              index := i })) ∧
    (∀ c ∈ chunk_text enc digest text chunk_size chunk_overlap,
      c.token_count ≤ chunk_size) ∧
    chunk_text enc digest text chunk_size chunk_overlap =
      chunk_text enc digest text chunk_size chunk_overlap := by
  have hcs : 0 < chunk_size := by omega
  have hstep : 0 < max 1 (chunk_size - chunk_overlap) :=
    lt_of_lt_of_le one_pos (le_max_left 1 _)
  have p2 : enc.encode text = [] →
      chunk_text enc digest text chunk_size chunk_overlap = [] := by
    intro h
    by_cases ht : text = "" <;> simp [chunk_text, ht, h]
  have p3 : text ≠ "" → enc.encode text ≠ [] →
      chunk_text enc digest text chunk_size chunk_overlap =
        (List.range (((enc.encode text).length +
            max 1 (chunk_size - chunk_overlap) - 1) /
            max 1 (chunk_size - chunk_overlap))).map
          (fun i =>
            { text := enc.decode (((enc.encode text).drop
                (i * max 1 (chunk_size - chunk_overlap))).take chunk_size)
              token_count := (((enc.encode text).drop
                (i * max 1 (chunk_size - chunk_overlap))).take chunk_size).length
              sha256 := digest (enc.decode (((enc.encode text).drop
                (i * max 1 (chunk_size - chunk_overlap))).take chunk_size))
              index := i }) := by
    intro htext htok
    have htoklen : 0 < (enc.encode text).length := List.length_pos.mpr htok
    have hslice : ∀ i, i < (chunk_tokens (enc.encode text) chunk_size
        chunk_overlap).length →
        ((enc.encode text).drop
          (i * max 1 (chunk_size - chunk_overlap))).take chunk_size ≠ [] := by
      intro i hi
      rw [chunk_tokens_length] at hi
      exact slice_ne_nil _ _ _ hcs
        (mul_step_lt (enc.encode text).length _ i hstep hi)
    simp only [chunk_text, if_neg htext]
    rw [if_neg htok]
    rw [filterMap_eq_map_of_some _
      (fun p : Nat × List Nat =>
        ({ text := enc.decode p.2, token_count := p.2.length,
           sha256 := digest (enc.decode p.2), index := p.1 } : Chunk)) _ ?_]
    · apply List.ext_getElem
      · simp [List.enum_length, chunk_tokens_length]
      · intro n h1 h2
        simp only [List.getElem_map, List.getElem_enum, List.getElem_range]
        rw [chunk_tokens_getElem]
    · intro p hp
      obtain ⟨i, hi, hpe⟩ := List.mem_iff_getElem.mp hp
      rw [List.getElem_enum] at hpe
      have hi' : i < (chunk_tokens (enc.encode text) chunk_size
          chunk_overlap).length := by
        simpa [List.enum_length] using hi
      have h2 : p.2 ≠ [] := by
        rw [← hpe]
        simp only []
        rw [chunk_tokens_getElem _ _ _ _ hi']
        exact hslice i hi'
      rw [if_neg h2]
  refine ⟨rfl, p2, p3, ?_, rfl⟩
  intro c hc
  by_cases ht : text = ""
  · subst ht
    rw [show chunk_text enc digest "" chunk_size chunk_overlap = []
      from rfl] at hc
    cases hc
  · by_cases htok : enc.encode text = []
    · rw [p2 htok] at hc; cases hc
    · rw [p3 ht htok] at hc
      rcases List.mem_map.mp hc with ⟨i, _, rfl⟩
      simp only [List.length_take]
      exact min_le_left _ _

/-- Witness for `chunk_text_spec` with `chunk_size = 3`, `chunk_overlap = 1`
on the text `abcd` under the toy tokenizer. -/
theorem chunk_text_spec_witness :
    1 < 3 ∧ chunk_text toyEncoder toyDigest "" 3 1 = [] ∧
    (∀ c ∈ chunk_text toyEncoder toyDigest "abcd" 3 1, c.token_count ≤ 3) :=
  ⟨by decide, (chunk_text_spec toyEncoder toyDigest "abcd" 3 1 (by decide)).1,
   (chunk_text_spec toyEncoder toyDigest "abcd" 3 1 (by decide)).2.2.2.1⟩

/-- Claim C5, counterexample: an exception raised by the embedding client
during `retrieve` propagates to the caller — it is neither converted into an
empty response nor is it a vector-store error, contradicting the claim that
only vector-store errors surface as exceptions. -/
theorem retrieve_embed_error_counterexample :
    retrieve false 8 (7/20) (some (19/20)) "tenant" none none
        (.error (.aggregate ["m"])) (fun _ _ => .ok []) =
      .error (.embedFailure (.aggregate ["m"])) ∧
    retrieve false 8 (7/20) (some (19/20)) "tenant" none none
        (.error (.aggregate ["m"])) (fun _ _ => .ok []) ≠
      .ok ⟨[], none, .noDiag⟩ :=
  ⟨rfl, by decide⟩

/-- Claim C5 (amended): when the embedding client returns no vector for the
query, `retrieve` returns an empty response — empty chunk list, diagnostics
reason `empty_embedding` when diagnostics are enabled — rather than raising;
a vector-store error during the search propagates to the caller; and an
exception raised by the embedding client itself also propagates (it is not
converted into an empty response). -/
theorem retrieve_error_handling (diagEnabled : Bool) (defaultTopK : ℤ)
    (floor : ℚ) (ceiling : Option ℚ) (tenant_id : String)
    (filters : Option RetrievalFilters) (top_k : Option ℤ)
    (searchOutcome : List ℚ → ℤ → Except String (List VectorSearchResult)) :
    retrieve diagEnabled defaultTopK floor ceiling tenant_id filters top_k
        (.ok []) searchOutcome =
      .ok ⟨[], applied_filters_of filters,
        if diagEnabled then .reason "empty_embedding" else .noDiag⟩ ∧
    (∀ e, retrieve diagEnabled defaultTopK floor ceiling tenant_id filters
        top_k (.error e) searchOutcome = .error (.embedFailure e)) ∧
    (∀ (v : List ℚ) (vs : List (List ℚ)) (msg : String),
      searchOutcome v (resolve_top_k top_k defaultTopK) = .error msg →
      retrieve diagEnabled defaultTopK floor ceiling tenant_id filters top_k
        (.ok (v :: vs)) searchOutcome = .error (.storeFailure msg)) := by
  refine ⟨rfl, fun e => rfl, ?_⟩
  intro v vs msg h
  simp only [retrieve]
  rw [h]

/-- Witness for `retrieve_error_handling`: with diagnostics enabled, an
empty embedding yields the empty response with reason `empty_embedding`,
while a store failure on a produced embedding propagates as an exception. -/
theorem retrieve_error_handling_witness :
    retrieve true 8 (7/20) (some (19/20)) "t" none none
        (.ok []) searchDown =
      .ok ⟨[], none, .reason "empty_embedding"⟩ ∧
    searchDown [1] (resolve_top_k none 8) = .error "down" ∧
    retrieve true 8 (7/20) (some (19/20)) "t" none none
        (.ok [[1]]) searchDown = .error (.storeFailure "down") :=
  ⟨(retrieve_error_handling true 8 (7/20) (some (19/20)) "t" none none
      searchDown).1,
   rfl,
   (retrieve_error_handling true 8 (7/20) (some (19/20)) "t" none none
      searchDown).2.2 [1] [] "down" rfl⟩

/-- The second component of `processFile` is `fileOutcome`. -/
theorem processFile_outcome (o : FileOracle) (s : PipeState) :
    (processFile o s).2 = fileOutcome o := by
  obtain ⟨ee, sup, dup, hdc, edc, sc, be, ue⟩ := o
  cases ee <;> cases sup <;> cases dup <;> cases be <;> cases ue <;>
    cases sc <;> rfl

/-- `_process_file` never records an `error` event, never touches the run's
status, start flag or finish flag, and never touches `failed_documents`. -/
theorem processFile_run_effects (o : FileOracle) (s : PipeState) :
    (processFile o s).1.run.events.count EventKind.error =
      s.run.events.count EventKind.error ∧
    (processFile o s).1.run.status = s.run.status ∧
    (processFile o s).1.result.failed_documents =
      s.result.failed_documents := by
  obtain ⟨ee, sup, dup, hdc, edc, sc, be, ue⟩ := o
  cases ee <;> cases sup <;> cases dup <;> cases be <;> cases ue <;>
    cases sc <;>
    simp [processFile, RunRec.addEvent, RunRec.addEvents, PipeState.commit,
      List.count_append, List.count_replicate, List.count_singleton]

/-- `_process_file` appends at most one `Document`, created in `processing`
status and mutated only to `ready`. -/
theorem processFile_docs (o : FileOracle) (s : PipeState) :
    (processFile o s).1.docs = s.docs ∨
    (processFile o s).1.docs = s.docs ++ [DocStatus.processing] ∨
    (processFile o s).1.docs = s.docs ++ [DocStatus.ready] := by
  obtain ⟨ee, sup, dup, hdc, edc, sc, be, ue⟩ := o
  cases ee <;> cases sup <;> cases dup <;> cases be <;> cases ue <;>
    cases sc <;>
    simp [processFile, RunRec.addEvent, RunRec.addEvents, PipeState.commit,
      List.dropLast_concat]

/-- `ingest_directory` on a valid path with healthy services is the file
loop from `startState` followed by the terminal transition. -/
theorem ingest_directory_run_eq (files : List FileOracle) (run0 : RunRec) :
    ingest_directory true none files run0 =
      match fileLoop files (startState files run0) with
      | (s3, none) => (completedState s3, .ok s3.result)
      | (s3, some e) => (failedState s3, .error (.fileFailure e)) := rfl

/-- Every document present after running the file loop was either present
before it or was created by it in `processing` or `ready` status. -/
theorem fileLoop_docs :
    ∀ (files : List FileOracle) (s : PipeState),
      ∀ d ∈ (fileLoop files s).1.docs,
        d ∈ s.docs ∨ d = DocStatus.processing ∨ d = DocStatus.ready := by
  intro files
  induction files with
  | nil => intro s d hd; exact Or.inl hd
  | cons o rest ih =>
    intro s d hd
    rcases hps : processFile o s with ⟨s', r⟩
    have hdocs := processFile_docs o s
    rw [hps] at hdocs
    have hmem : ∀ x ∈ s'.docs,
        x ∈ s.docs ∨ x = DocStatus.processing ∨ x = DocStatus.ready := by
      intro x hx
      rcases hdocs with h | h | h <;> rw [h] at hx
      · exact Or.inl hx
      · rcases List.mem_append.mp hx with h' | h'
        · exact Or.inl h'
        · exact Or.inr (Or.inl (List.mem_singleton.mp h'))
      · rcases List.mem_append.mp hx with h' | h'
        · exact Or.inl h'
        · exact Or.inr (Or.inr (List.mem_singleton.mp h'))
    simp only [fileLoop] at hd
    rw [hps] at hd
    cases r with
    | ok b =>
      cases b
      · have hd' : d ∈ (fileLoop rest { s' with result := { s'.result with
            skipped_documents := s'.result.skipped_documents + 1 } }).1.docs := hd
        rcases ih _ d hd' with h | h
        · exact hmem d h
        · exact Or.inr h
      · have hd' : d ∈ (fileLoop rest { s' with result := { s'.result with
            processed_documents := s'.result.processed_documents + 1 } }).1.docs := hd
        rcases ih _ d hd' with h | h
        · exact hmem d h
        · exact Or.inr h
    | error e =>
      replace hd : d ∈ ((if e.isEmbeddingServiceError = true then
          ({ s' with run := s'.run.addEvent .error }, some e)
        else
          fileLoop rest { s' with
            run := s'.run.addEvent .error,
            result := { s'.result with
              failed_documents := s'.result.failed_documents + 1 } }) :
          PipeState × Option PyExc).1.docs := hd
      by_cases hfat : e.isEmbeddingServiceError = true
      · rw [if_pos hfat] at hd
        exact hmem d hd
      · rw [if_neg hfat] at hd
        rcases ih _ d hd with h | h
        · exact hmem d h
        · exact Or.inr h

/-- When no file raises an `EmbeddingServiceError`, the file loop finishes
without an exception, leaves the run status untouched, counts exactly the
raising files in `failed_documents`, and records exactly one `error` event
per raising file. -/
theorem fileLoop_no_fatal :
    ∀ (files : List FileOracle) (s : PipeState),
      (∀ p ∈ files, isFatalFile p = false) →
      (fileLoop files s).2 = none ∧
      (fileLoop files s).1.run.status = s.run.status ∧
      (fileLoop files s).1.result.failed_documents =
        s.result.failed_documents +
          (files.filter (fun p => isErrorOutcome p)).length ∧
      (fileLoop files s).1.run.events.count EventKind.error =
        s.run.events.count EventKind.error +
          (files.filter (fun p => isErrorOutcome p)).length := by
  intro files
  induction files with
  | nil => intro s _; exact ⟨rfl, rfl, by simp [fileLoop], by simp [fileLoop]⟩
  | cons o rest ih =>
    intro s hall
    have ho : isFatalFile o = false := hall o (List.mem_cons_self o rest)
    have hrest : ∀ p ∈ rest, isFatalFile p = false :=
      fun p hp => hall p (List.mem_cons_of_mem o hp)
    rcases hps : processFile o s with ⟨s', r⟩
    have heff := processFile_run_effects o s
    rw [hps] at heff
    have hout := processFile_outcome o s
    rw [hps] at hout
    cases r with
    | ok b =>
      have hio : isErrorOutcome o = false := by
        unfold isErrorOutcome
        rw [← hout]
      rw [List.filter_cons, hio]
      simp only [Bool.false_eq_true, if_false]
      cases b
      · have hstep : fileLoop (o :: rest) s = fileLoop rest
            { s' with result := { s'.result with
              skipped_documents := s'.result.skipped_documents + 1 } } := by
          simp only [fileLoop]
          rw [hps]
        rw [hstep]
        obtain ⟨h1, h2, h3, h4⟩ := ih _ hrest
        refine ⟨h1, h2.trans heff.2.1, ?_, ?_⟩
        · rw [h3]
          exact congrArg (· + (rest.filter (fun p => isErrorOutcome p)).length)
            heff.2.2
        · rw [h4]
          exact congrArg (· + (rest.filter (fun p => isErrorOutcome p)).length)
            heff.1
      · have hstep : fileLoop (o :: rest) s = fileLoop rest
            { s' with result := { s'.result with
              processed_documents := s'.result.processed_documents + 1 } } := by
          simp only [fileLoop]
          rw [hps]
        rw [hstep]
        obtain ⟨h1, h2, h3, h4⟩ := ih _ hrest
        refine ⟨h1, h2.trans heff.2.1, ?_, ?_⟩
        · rw [h3]
          exact congrArg (· + (rest.filter (fun p => isErrorOutcome p)).length)
            heff.2.2
        · rw [h4]
          exact congrArg (· + (rest.filter (fun p => isErrorOutcome p)).length)
            heff.1
    | error e =>
      have hio : isErrorOutcome o = true := by
        unfold isErrorOutcome
        rw [← hout]
      have hne : e.isEmbeddingServiceError = false := by
        unfold isFatalFile at ho
        rw [← hout] at ho
        exact ho
      rw [List.filter_cons, hio]
      simp only [if_true]
      have hstep : fileLoop (o :: rest) s = fileLoop rest
          { s' with
            run := s'.run.addEvent .error,
            result := { s'.result with
              failed_documents := s'.result.failed_documents + 1 } } := by
        simp only [fileLoop]
        rw [hps]
        simp [hne]
      rw [hstep]
      obtain ⟨h1, h2, h3, h4⟩ := ih _ hrest
      have h1c : List.count EventKind.error [EventKind.error] = 1 := by decide
      have hcount : (s'.run.addEvent EventKind.error).events.count
          EventKind.error = s.run.events.count EventKind.error + 1 := by
        rw [show (s'.run.addEvent EventKind.error).events =
          s'.run.events ++ [EventKind.error] from rfl]
        rw [List.count_append, heff.1, h1c]
      refine ⟨h1, h2.trans heff.2.1, ?_, ?_⟩
      · rw [h3]
        exact (congrArg (fun n => n + 1 +
          (rest.filter (fun p => isErrorOutcome p)).length) heff.2.2).trans
          (by rw [List.length_cons]; omega)
      · rw [h4]
        exact (congrArg (fun n => n +
          (rest.filter (fun p => isErrorOutcome p)).length) hcount).trans
          (by rw [List.length_cons]; omega)

/-- When the loop reaches a file raising an `EmbeddingServiceError` after a
prefix of non-fatal files, it stops with that exception, having recorded an
`error` event for it. -/
theorem fileLoop_fatal :
    ∀ (pre : List FileOracle) (s : PipeState) (o : FileOracle)
      (rest : List FileOracle) (e : PyExc),
      (∀ p ∈ pre, isFatalFile p = false) →
      fileOutcome o = .error e →
      e.isEmbeddingServiceError = true →
      (fileLoop (pre ++ o :: rest) s).2 = some e ∧
      EventKind.error ∈ (fileLoop (pre ++ o :: rest) s).1.run.events := by
  intro pre
  induction pre with
  | nil =>
    intro s o rest e _ hout hfat
    rcases hps : processFile o s with ⟨s', r⟩
    have hr := processFile_outcome o s
    rw [hps, hout] at hr
    subst hr
    have hstep : fileLoop ([] ++ o :: rest) s =
        ({ s' with run := s'.run.addEvent .error }, some e) := by
      simp only [List.nil_append, fileLoop]
      rw [hps]
      simp [hfat]
    rw [hstep]
    refine ⟨rfl, ?_⟩
    exact List.mem_append.mpr (Or.inr (List.mem_singleton.mpr rfl))
  | cons p pre' ih =>
    intro s o rest e hpre hout hfat
    have hp : isFatalFile p = false := hpre p (List.mem_cons_self p pre')
    have hpre' : ∀ q ∈ pre', isFatalFile q = false :=
      fun q hq => hpre q (List.mem_cons_of_mem p hq)
    rcases hps : processFile p s with ⟨s', r⟩
    have hr := processFile_outcome p s
    rw [hps] at hr
    cases r with
    | ok b =>
      cases b
      · have hstep : fileLoop ((p :: pre') ++ o :: rest) s =
            fileLoop (pre' ++ o :: rest) { s' with result := { s'.result with
              skipped_documents := s'.result.skipped_documents + 1 } } := by
          simp only [List.cons_append, fileLoop]
          rw [hps]
          rfl
        rw [hstep]
        exact ih _ o rest e hpre' hout hfat
      · have hstep : fileLoop ((p :: pre') ++ o :: rest) s =
            fileLoop (pre' ++ o :: rest) { s' with result := { s'.result with
              processed_documents := s'.result.processed_documents + 1 } } := by
          simp only [List.cons_append, fileLoop]
          rw [hps]
          rfl
        rw [hstep]
        exact ih _ o rest e hpre' hout hfat
    | error e' =>
      have hne : e'.isEmbeddingServiceError = false := by
        unfold isFatalFile at hp
        rw [← hr] at hp
        exact hp
      have hstep : fileLoop ((p :: pre') ++ o :: rest) s =
          fileLoop (pre' ++ o :: rest) { s' with
            run := s'.run.addEvent .error,
            result := { s'.result with
              failed_documents := s'.result.failed_documents + 1 } } := by
        simp only [List.cons_append, fileLoop]
        rw [hps]
        simp [hne]
      rw [hstep]
      exact ih _ o rest e hpre' hout hfat

/-- Claim C1, counterexample: a `VectorStoreError` raised during a file's
processing is NOT re-raised — it falls into the generic `except Exception`
handler (it is not an `EmbeddingServiceError`), so the run completes with
`failed_documents = 1` instead of aborting. -/
theorem ingest_vector_store_error_counterexample :
    (ingest_directory true none [fileVectorStoreFailure] pendingRun).2 =
      .ok ⟨0, 0, 1, 0, 0⟩ ∧
    (ingest_directory true none [fileVectorStoreFailure] pendingRun).1.run.status =
      RunStatus.completed ∧
    PyExc.vectorStore.isEmbeddingServiceError = false := by decide

/-- Claim C1 (amended): during an ingestion run, a file whose processing
raises an `EmbeddingServiceError` (retryable, timeout or otherwise) has an
`error` event recorded and the exception re-raised, aborting the file loop
and failing the run; any other per-file failure — including every
`VectorStoreError` — is caught, increments `failed_documents`, is recorded
as an `error` event, and the run continues with the next file to
completion. -/
theorem ingest_error_classes (files pre rest : List FileOracle)
    (o : FileOracle) (e : PyExc) (run0 : RunRec) :
    (files = pre ++ o :: rest →
      (∀ p ∈ pre, isFatalFile p = false) →
      fileOutcome o = .error e →
      e.isEmbeddingServiceError = true →
      (ingest_directory true none files run0).2 = .error (.fileFailure e) ∧
      (ingest_directory true none files run0).1.run.status =
        RunStatus.failed ∧
      EventKind.error ∈ (ingest_directory true none files run0).1.run.events) ∧
    ((∀ p ∈ files, isFatalFile p = false) →
      (ingest_directory true none files run0).2 =
        .ok (ingest_directory true none files run0).1.result ∧
      (ingest_directory true none files run0).1.run.status =
        RunStatus.completed ∧
      (ingest_directory true none files run0).1.result.failed_documents =
        (files.filter (fun p => isErrorOutcome p)).length ∧
      (ingest_directory true none files run0).1.run.events.count
          EventKind.error =
        run0.events.count EventKind.error +
          (files.filter (fun p => isErrorOutcome p)).length) := by
  constructor
  · intro hsplit hpre hout hfat
    subst hsplit
    obtain ⟨h2, hmem⟩ := fileLoop_fatal pre
      (startState (pre ++ o :: rest) run0) o rest e hpre hout hfat
    rw [ingest_directory_run_eq]
    rcases hfl : fileLoop (pre ++ o :: rest)
        (startState (pre ++ o :: rest) run0) with ⟨s3, err⟩
    rw [hfl] at h2 hmem
    have h2' : err = some e := h2
    subst h2'
    refine ⟨rfl, rfl, ?_⟩
    show EventKind.error ∈ (failedState s3).run.events
    show EventKind.error ∈ s3.run.events ++ [EventKind.runFailed]
    exact List.mem_append.mpr (Or.inl hmem)
  · intro hall
    obtain ⟨h1, h2, h3, h4⟩ :=
      fileLoop_no_fatal files (startState files run0) hall
    rw [ingest_directory_run_eq]
    rcases hfl : fileLoop files (startState files run0) with ⟨s3, err⟩
    rw [hfl] at h1 h2 h3 h4
    have h1' : err = none := h1
    subst h1'
    refine ⟨rfl, rfl, ?_, ?_⟩
    · exact h3.trans (Nat.zero_add _)
    · show List.count EventKind.error
          (s3.run.events ++ [EventKind.runCompleted]) =
        run0.events.count EventKind.error +
          (files.filter (fun p => isErrorOutcome p)).length
      rw [List.count_append]
      have hz2 : List.count EventKind.error [EventKind.runCompleted] = 0 := by
        decide
      rw [hz2]
      have h4' : List.count EventKind.error s3.run.events =
          List.count EventKind.error
            (run0.events ++ [EventKind.runStarted]) +
          (files.filter (fun p => isErrorOutcome p)).length := h4
      rw [List.count_append] at h4'
      have hz1 : List.count EventKind.error [EventKind.runStarted] = 0 := by
        decide
      rw [hz1] at h4'
      omega

/-- Witness for `ingest_error_classes`: a run in which an extraction error
precedes an embedding failure aborts with the embedding error after counting
nothing, while a run with a vector-store failure and an extraction failure
completes with both counted in `failed_documents`. -/
theorem ingest_error_classes_witness :
    ((ingest_directory true none [fileExtractFailure, fileEmbedFailure]
        pendingRun).2 = .error (.fileFailure .embedRetryable) ∧
      (ingest_directory true none [fileExtractFailure, fileEmbedFailure]
        pendingRun).1.run.status = RunStatus.failed ∧
      EventKind.error ∈ (ingest_directory true none
        [fileExtractFailure, fileEmbedFailure] pendingRun).1.run.events) ∧
    ((ingest_directory true none [fileVectorStoreFailure, fileExtractFailure]
        pendingRun).1.result.failed_documents = 2 ∧
      (ingest_directory true none [fileVectorStoreFailure, fileExtractFailure]
        pendingRun).1.run.status = RunStatus.completed) :=
  ⟨(ingest_error_classes [fileExtractFailure, fileEmbedFailure]
      [fileExtractFailure] [] fileEmbedFailure .embedRetryable pendingRun).1
      rfl (by decide) (by decide) (by decide),
   ⟨((ingest_error_classes [fileVectorStoreFailure, fileExtractFailure]
        [] [] fileEmbedFailure .embedRetryable pendingRun).2
        (by decide)).2.2.1.trans (by decide),
    ((ingest_error_classes [fileVectorStoreFailure, fileExtractFailure]
        [] [] fileEmbedFailure .embedRetryable pendingRun).2
        (by decide)).2.1⟩⟩

/-- Claim C7, counterexample: a vector-store failure in `_ensure_services`
is a fatal abort of the run (the error propagates to the caller), yet it
happens before the `try` block, so the run record is left untouched — its
status stays `pending`, no `run_failed` event is recorded, and nothing is
committed. -/
theorem ingest_service_check_counterexample :
    (ingest_directory true (some .vectorStore) [] pendingRun).1.run =
      pendingRun ∧
    (ingest_directory true (some .vectorStore) [] pendingRun).1.committedRun =
      pendingRun ∧
    (ingest_directory true (some .vectorStore) [] pendingRun).2 =
      .error (.serviceCheck .vectorStore) ∧
    EventKind.runFailed ∉
      (ingest_directory true (some .vectorStore) [] pendingRun).1.run.events ∧
    pendingRun.status = RunStatus.pending := by decide

/-- Claim C7 (amended): on any fatal abort arising from the file loop (after
the run transitioned to `running`), the run's status is set to `failed`, its
finish time is set, a `run_failed` event is emitted, and the run record is
committed in that state before the triggering error propagates to the
caller; a fatal failure in path validation or in the pre-run service checks,
by contrast, propagates without modifying or committing the run record at
all. -/
theorem ingest_fatal_marks_failed (files : List FileOracle) (run0 : RunRec) :
    (∀ e, (ingest_directory true none files run0).2 =
        .error (.fileFailure e) →
      (ingest_directory true none files run0).1.run.status =
        RunStatus.failed ∧
      (ingest_directory true none files run0).1.run.finishedAtSet = true ∧
      EventKind.runFailed ∈
        (ingest_directory true none files run0).1.run.events ∧
      (ingest_directory true none files run0).1.committedRun =
        (ingest_directory true none files run0).1.run) ∧
    (∀ svcE, (ingest_directory true (some svcE) files run0).1.run = run0 ∧
      (ingest_directory true (some svcE) files run0).1.committedRun = run0 ∧
      (ingest_directory true (some svcE) files run0).2 =
        .error (.serviceCheck svcE)) ∧
    ((ingest_directory false none files run0).1.run = run0 ∧
      (ingest_directory false none files run0).1.committedRun = run0 ∧
      (ingest_directory false none files run0).2 = .error .invalidPath) := by
  refine ⟨?_, fun svcE => ⟨rfl, rfl, rfl⟩, rfl, rfl, rfl⟩
  intro e h
  rw [ingest_directory_run_eq] at h ⊢
  rcases hfl : fileLoop files (startState files run0) with ⟨s3, err⟩
  rw [hfl] at h
  cases err with
  | none => exact Except.noConfusion h
  | some e' =>
    refine ⟨rfl, rfl, ?_, rfl⟩
    show EventKind.runFailed ∈ s3.run.events ++ [EventKind.runFailed]
    exact List.mem_append.mpr (Or.inr (List.mem_singleton.mpr rfl))

/-- Witness for `ingest_fatal_marks_failed`: a run aborted by an embedding
failure ends (and is committed) as `failed` with `run_failed` recorded. -/
theorem ingest_fatal_marks_failed_witness :
    (ingest_directory true none [fileEmbedFailure] pendingRun).2 =
      .error (.fileFailure .embedRetryable) ∧
    ((ingest_directory true none [fileEmbedFailure] pendingRun).1.run.status =
        RunStatus.failed ∧
      (ingest_directory true none [fileEmbedFailure]
        pendingRun).1.run.finishedAtSet = true ∧
      EventKind.runFailed ∈ (ingest_directory true none [fileEmbedFailure]
        pendingRun).1.run.events ∧
      (ingest_directory true none [fileEmbedFailure]
        pendingRun).1.committedRun =
        (ingest_directory true none [fileEmbedFailure] pendingRun).1.run) :=
  ⟨by decide,
   (ingest_fatal_marks_failed [fileEmbedFailure] pendingRun).1
     .embedRetryable (by decide)⟩

/-- Claim C10, counterexample: a file whose vector upsert fails is a
per-file failure (`failed_documents = 1`, the run continues and completes),
yet its document does NOT remain in `processing` status — the upsert runs
after the document was already marked `ready` and committed. -/
theorem document_ready_on_upsert_failure_counterexample :
    (ingest_directory true none [fileUpsertFailure] pendingRun).1.docs =
      [DocStatus.ready] ∧
    (ingest_directory true none [fileUpsertFailure]
      pendingRun).1.result.failed_documents = 1 ∧
    (ingest_directory true none [fileUpsertFailure] pendingRun).1.run.status =
      RunStatus.completed := by decide

/-- Claim C10 (amended): the pipeline never assigns lifecycle status
`failed` (or `pending`) to any `Document` — every document it creates starts
as `processing` and the only status mutation is to `ready`, applied when the
document's chunk rows are persisted, before the vector upsert. A document
whose processing fails before that point (during batch embedding /
embedding-level dedup) remains `processing`; once the batch stage succeeds
the document ends `ready` even when the subsequent vector upsert fails and
the file is counted as failed. -/
theorem document_status_invariant (pv : Bool) (svc : Option PyExc)
    (files : List FileOracle) (run0 : RunRec) (o : FileOracle)
    (s : PipeState) (e : PyExc) :
    (∀ d ∈ (ingest_directory pv svc files run0).1.docs,
      d = DocStatus.processing ∨ d = DocStatus.ready) ∧
    (o.extractErr = none → o.supported = true → o.duplicateDoc = false →
      o.batchErr = some e →
      (processFile o s).1.docs = s.docs ++ [DocStatus.processing] ∧
      (processFile o s).2 = .error e) ∧
    (o.extractErr = none → o.supported = true → o.duplicateDoc = false →
      o.batchErr = none →
      (processFile o s).1.docs = s.docs ++ [DocStatus.ready]) := by
  refine ⟨?_, ?_, ?_⟩
  · intro d hd
    cases pv with
    | false => exact absurd hd (List.not_mem_nil d)
    | true =>
      cases svc with
      | some e' => exact absurd hd (List.not_mem_nil d)
      | none =>
        rw [ingest_directory_run_eq] at hd
        rcases hfl : fileLoop files (startState files run0) with ⟨s3, err⟩
        rw [hfl] at hd
        have hd' : d ∈ s3.docs := by
          cases err with
          | none => exact hd
          | some e' => exact hd
        have := fileLoop_docs files (startState files run0) d
        rw [hfl] at this
        rcases this hd' with h | h
        · exact absurd h (List.not_mem_nil d)
        · exact h
  · intro h1 h2 h3 h4
    obtain ⟨ee, sup, dup, hdc, edc, sc, be, ue⟩ := o
    subst h1 h2 h3 h4
    exact ⟨rfl, rfl⟩
  · intro h1 h2 h3 h4
    obtain ⟨ee, sup, dup, hdc, edc, sc, be, ue⟩ := o
    subst h1 h2 h3 h4
    cases ue <;> cases sc <;>
      simp [processFile, PipeState.commit, List.dropLast_concat]

/-- Witness for `document_status_invariant`: in a run with one
batch-failing file (vector-store error, so the run completes) the created
document stays `processing`; `processFile` on that file appends a
`processing` document and re-raises, while on an upsert-failing file it
appends a `ready` document. -/
theorem document_status_invariant_witness :
    (∀ d ∈ (ingest_directory true none [fileVectorStoreFailure]
        pendingRun).1.docs,
      d = DocStatus.processing ∨ d = DocStatus.ready) ∧
    ((processFile fileVectorStoreFailure
        (startState [fileVectorStoreFailure] pendingRun)).1.docs =
      (startState [fileVectorStoreFailure] pendingRun).docs ++
        [DocStatus.processing] ∧
      (processFile fileVectorStoreFailure
        (startState [fileVectorStoreFailure] pendingRun)).2 =
        .error .vectorStore) ∧
    (processFile fileUpsertFailure
        (startState [fileUpsertFailure] pendingRun)).1.docs =
      (startState [fileUpsertFailure] pendingRun).docs ++
        [DocStatus.ready] :=
  ⟨(document_status_invariant true none [fileVectorStoreFailure] pendingRun
      fileVectorStoreFailure
      (startState [fileVectorStoreFailure] pendingRun) .vectorStore).1,
   (document_status_invariant true none [fileVectorStoreFailure] pendingRun
      fileVectorStoreFailure
      (startState [fileVectorStoreFailure] pendingRun) .vectorStore).2.1
      rfl rfl rfl rfl,
   (document_status_invariant true none [fileUpsertFailure] pendingRun
      fileUpsertFailure
      (startState [fileUpsertFailure] pendingRun) .vectorStore).2.2
      rfl rfl rfl rfl⟩
